import Mathlib

/-!
Shallow embedding of the message-scraping engine of `src/main.py`
(classes `Message`, `MessageScrape`, `Helpers`) and of the properties
claimed about it.

A Python message dict is modelled by the structure `Rec`; an absent key
and a key holding `None` are both `Option.none` (the code only ever reads
the keys with `.get`, which identifies the two).  Python truthiness of a
string-or-None value is `truthyS`; truthiness of the `is_reply_preview`
value is `truthyB`.
-/

namespace DiscordAuto

/-- One message record, as produced by `Message.to_dict` in `src/main.py`
(fields `author_name`, `author_id`, `body`, `time`, `server_id`,
`channel_id`, `is_reply_preview`).  `is_reply_preview = none` models a
dict from which the key has been popped. -/
structure Rec where
  author_name : Option String
  author_id : Option String
  body : Option String
  time : Option String
  server_id : Option String
  channel_id : Option String
  is_reply_preview : Option Bool
deriving DecidableEq, Repr

/-- Python truthiness of a `str | None` value: `None` and `""` are falsy. -/
def truthyS : Option String → Bool
  | none => false
  | some s => !s.isEmpty

/-- Python truthiness of the `is_reply_preview` slot (`bool`, or key
popped). -/
def truthyB : Option Bool → Bool
  | none => false
  | some b => b

/-- Configuration constant `SKIP_INVALID` of `src/main.py`. -/
def SKIP_INVALID : Bool := true

/-- Result value of `MessageScrape.remove_previews`: returns `None` when
`msg.get("is_reply_preview")` is truthy, otherwise returns the dict with
the `is_reply_preview` key popped. -/
def remove_previews (msg : Rec) : Option Rec :=
  if truthyB msg.is_reply_preview then none
  else some { msg with is_reply_preview := none }

/-- Effect of `MessageScrape.remove_previews` on the argument dict itself
(the pop mutates the caller's dict in place; a preview dict is returned
early and left untouched). -/
def remove_previews_post (msg : Rec) : Rec :=
  if truthyB msg.is_reply_preview then msg
  else { msg with is_reply_preview := none }

/-- The check `all(entry.values())` on a dict whose `is_reply_preview` key has been
popped: the six remaining values must all be truthy. -/
def allValues (e : Rec) : Bool :=
  truthyS e.author_name && truthyS e.author_id && truthyS e.body &&
    truthyS e.time && truthyS e.server_id && truthyS e.channel_id

/-- The deduplication key `(entry.get("author_id"), entry.get("time"))`. -/
def dedupKey (e : Rec) : Option String × Option String :=
  (e.author_id, e.time)

/-- The loop of `MessageScrape.filter_logs`, with the `seen` set of keys
made explicit. -/
def filterLogsGo (seen : List (Option String × Option String)) :
    List Rec → List Rec
  | [] => []
  | entry :: rest =>
    match remove_previews entry with
    | none => filterLogsGo seen rest
    | some e =>
      if SKIP_INVALID && !allValues e then filterLogsGo seen rest
      else if dedupKey e ∉ seen ∧ truthyB e.is_reply_preview = false then
        e :: filterLogsGo (dedupKey e :: seen) rest
      else filterLogsGo seen rest

/-- Embedding of `MessageScrape.filter_logs`: drop previews, pop the preview flag,
drop entries with a falsy value (when `SKIP_INVALID`), and keep the first
entry per `(author_id, time)` key. -/
def filter_logs (msglist : List Rec) : List Rec :=
  filterLogsGo [] msglist

/-- Effect of one `filter_logs` call on the caller's list: every
non-preview entry has its `is_reply_preview` key popped in place; preview
entries are untouched; nothing else changes. -/
def filter_logs_post (msglist : List Rec) : List Rec :=
  msglist.map remove_previews_post

/-- Rendering of one optional string field by `json.dumps`. -/
def jsonOptStr (s : Option String) : String :=
  match s with
  | none => "null"
  | some v => "\"" ++ v ++ "\""

/-- Rendering by `json.dumps` of one record dict whose `is_reply_preview` key has been
popped (the only dicts that reach `write_logs`), in insertion key order. -/
def dumpsRec (e : Rec) : String :=
  "\x7b\"author_name\": " ++ jsonOptStr e.author_name ++
    ", \"author_id\": " ++ jsonOptStr e.author_id ++
    ", \"body\": " ++ jsonOptStr e.body ++
    ", \"time\": " ++ jsonOptStr e.time ++
    ", \"server_id\": " ++ jsonOptStr e.server_id ++
    ", \"channel_id\": " ++ jsonOptStr e.channel_id ++ "\x7d"

/-- Rendering by `json.dumps` of a list of record dicts. -/
def dumps (l : List Rec) : String :=
  "[" ++ String.intercalate ", " (l.map dumpsRec) ++ "]"

/-- Embedding of `MessageScrape.write_logs` with `WRITING_MODE = "json"` (the value set
in the configuration block): when `to_save` is non-empty it overwrites the
file with `json.dumps(to_save)`, otherwise it writes nothing.  The file's
content is `Option String` (`none` = no file). -/
def write_logs (file : Option String) (to_save : List Rec) : Option String :=
  if to_save.isEmpty then file else some (dumps to_save)

/-- Embedding of `MessageScrape.save_logs`: filter the in-memory list and write it.
The first argument is the artifact content on disk at call time; the code
passes it only through `write_logs` (it is never re-read). -/
def save_logs (file : Option String) (messages : List Rec) : Option String :=
  write_logs file (filter_logs messages)

/-! ### `Helpers.check_json` (the `load` path)

The content of the artifact is a `String`; the outcome of `json.loads` on
it is passed in as a `Parsed` value (the JSON parser is the external
`json` library).  The file system is the artifact content plus the
contents of the quarantine files created by the `file.rename` call. -/

/-- Outcome of `json.loads(text)`: a decode error, a non-list JSON value,
or a list of records. -/
inductive Parsed where
  | malformed : Parsed
  | nonList : Parsed
  | list : List Rec → Parsed
deriving DecidableEq, Repr

/-- File-system state seen by `check_json`: the artifact at the saving
path, and the contents of the `invalidJSON-<timestamp>.json` quarantine
files produced by renames. -/
structure FsState where
  artifact : Option String
  quarantine : List String
deriving DecidableEq, Repr

/-- Embedding of `Helpers.check_json` with `WRITING_MODE = "json"`: returns the loaded
record list and the resulting file-system state.  `parsed` is the result
of `json.loads` on the artifact's text.  The rename moves the artifact's
content to a fresh quarantine name; nothing is deleted or overwritten. -/
def check_json (fs : FsState) (parsed : Parsed) : List Rec × FsState :=
  match fs.artifact with
  | none => ([], fs)
  | some text =>
    if text.length > 3 then
      match parsed with
      | Parsed.list old =>
        if old.isEmpty then
          ([], { artifact := none, quarantine := text :: fs.quarantine })
        else (old, fs)
      | _ => ([], { artifact := none, quarantine := text :: fs.quarantine })
    else ([], fs)

/-! ### `Message.see_if_is_headless` and the collector loop -/

/-- Embedding of `Message.see_if_is_headless`: when `last_msg` is truthy, the record's
author fields are both falsy and its body is truthy, and `last_msg` has
truthy `author_id` and `author_name`, the record inherits both author
fields from `last_msg`; otherwise it is unchanged. -/
def see_if_is_headless (last_msg : Option Rec) (m : Rec) : Rec :=
  match last_msg with
  | none => m
  | some last =>
    if !truthyS m.author_name && !truthyS m.author_id && truthyS m.body then
      if truthyS last.author_id && truthyS last.author_name then
        { m with author_id := last.author_id, author_name := last.author_name }
      else m
    else m

/-- The per-node tail of the loop body of `MessageScrape.retrieve_messages`
(lines `last_message = None` through `logged_messages.append(...)`):
the node's parsed record goes through `see_if_is_headless` with
`logged_messages[-1]` (or `None` when the list is empty) as `last_msg`
and is appended.  The side-channel `crazy` branch touches neither
`seen_ids` nor `logged_messages` and is omitted. -/
def processNode (logged : List Rec) (m : Rec) : List Rec :=
  logged ++ [see_if_is_headless logged.getLast? m]

/-- The `Codes` enumeration of `src/main.py`. -/
inductive Codes where
  | BREAK_INNER : Codes
  | PASS : Codes
deriving DecidableEq, Repr

/-- One message node as the collector reads it: its DOM `id` attribute
and the record its `Message` parse yields (before headless resolution,
which depends on the accumulator).  A node whose read raises
`StaleElementReferenceException` is modelled as `Option.none` in the node
list handed to `retrieve_messages`. -/
structure NodeData where
  m_id : Option String
  msg : Rec
deriving DecidableEq, Repr

/-- The `seen_ids` membership test `m_id in seen_ids`: only truthy ids are
ever added, so a `None` id is never a member. -/
def idSeen (seen : List String) : Option String → Bool
  | none => false
  | some i => seen.contains i

/-- The step `if m_id: seen_ids.add(m_id)`: only a truthy id is added. -/
def addId (seen : List String) : Option String → List String
  | none => seen
  | some i => if i.isEmpty then seen else i :: seen

/-- Embedding of `MessageScrape.retrieve_messages`: walk the current node list, skip
nodes whose id is already in `seen_ids`, parse and append the rest; a
staleness fault (a `none` node read) aborts the pass at once, returning
`Codes.BREAK_INNER` with the state accumulated so far; a completed pass
returns `Codes.PASS`. -/
def retrieve_messages (seen : List String) (logged : List Rec) :
    List (Option NodeData) → Codes × List String × List Rec
  | [] => (Codes.PASS, seen, logged)
  | none :: _ => (Codes.BREAK_INNER, seen, logged)
  | some nd :: rest =>
    if idSeen seen nd.m_id then retrieve_messages seen logged rest
    else retrieve_messages (addId seen nd.m_id) (processNode logged nd.msg) rest

/-- The controller reaction in `MessageScrape.scrape_messages`: on
`Codes.BREAK_INNER` the inner loop breaks, a fresh message-box handle is
located and `ids = set()` starts empty, while `messages` is carried over;
on `Codes.PASS` the pass's state continues unchanged. -/
def scrape_recover (out : Codes × List String × List Rec) :
    List String × List Rec :=
  match out with
  | (Codes.BREAK_INNER, _, logged) => ([], logged)
  | (Codes.PASS, seen, logged) => (seen, logged)

/-! ### `Message.find_images` and `Message.find_text`

A sub-element of the message-content wrapper is summarised by what the
two XPath queries of `find_images` and the attribute reads see on it:
its tag name, its Selenium `.text`, the `src` of its first descendant
`img[@data-type="emoji"]` (`none` when there is no such descendant; an
emoji whose `src` attribute is missing is identified with `some ""`,
since `if link:` treats both alike), and the `src` attributes of its
descendant `div[@data-role="img"]` elements in document order. -/
structure Elem where
  tag_name : String
  text : String
  emoji_src : Option String
  img_srcs : List (Option String)
deriving DecidableEq, Repr

/-- The `for img in imgs` loop of `Message.find_images`: the first truthy
`src` yields an `<img .../>` placeholder; otherwise the empty string. -/
def imgLoop : List (Option String) → String
  | [] => ""
  | none :: rest => imgLoop rest
  | some s :: rest =>
    if s.isEmpty then imgLoop rest else "<img src=\"" ++ s ++ "\"/>"

/-- Embedding of `Message.find_images`: an emoji descendant with a truthy `src` yields
an `<Emoji .../>` placeholder; otherwise the first image descendant with
a truthy `src` yields an `<img .../>` placeholder; otherwise `""`. -/
def find_images (parent : Elem) : String :=
  match parent.emoji_src with
  | some link => if !link.isEmpty then "<Emoji src=" ++ link ++ "/>"
      else imgLoop parent.img_srcs
  | none => imgLoop parent.img_srcs

/-- The message-content wrapper: its sub-elements in document order.
`none` models a message node with no `message-content` container
(`NoSuchElementException` on the wrapper lookup). -/
structure Wrapper where
  elems : List Elem
deriving DecidableEq, Repr

/-- The first accumulation loop of `Message.find_text`: `.//span`
sub-elements in document order, each contributing its `.text`. -/
def spanPass (acc : String) : List Elem → String
  | [] => acc
  | e :: rest =>
    if e.tag_name = "span" then spanPass (acc ++ e.text) rest
    else spanPass acc rest

/-- The second accumulation loop of `Message.find_text`:
`.//*[not(self::span)]` sub-elements in document order, each contributing
`find_images(elm)` and then `"\n"` when its tag is `br`. -/
def elemPass (acc : String) : List Elem → String
  | [] => acc
  | e :: rest =>
    if e.tag_name = "span" then elemPass acc rest
    else elemPass
      (acc ++ find_images e ++ (if e.tag_name = "br" then "\n" else "")) rest

/-- Embedding of `Message.find_text`: all span text first, then the image placeholders
and line breaks of the non-span sub-elements; an empty result is `None`,
as is a missing wrapper. -/
def find_text (w : Option Wrapper) : Option String :=
  match w with
  | none => none
  | some wrapper =>
    let result := elemPass (spanPass "" wrapper.elems) wrapper.elems
    if result.isEmpty then none else some result

/-! ### Spec-side definitions, for comparison with the code

These follow the wording of the specification (or of an amended claim),
to be compared with the definitions above, which follow the source. -/

/-- The records of a list that survive the reply-preview filter and the
`SKIP_INVALID` required-field filter, flag popped, in order. -/
def survivors (l : List Rec) : List Rec :=
  (l.filterMap remove_previews).filter (fun e => !(SKIP_INVALID && !allValues e))

/-- First-occurrence deduplication by `dedupKey`, with an accumulator of
keys already kept. -/
def dedupFirstGo (seen : List (Option String × Option String)) :
    List Rec → List Rec
  | [] => []
  | e :: rest =>
    if dedupKey e ∈ seen then dedupFirstGo seen rest
    else e :: dedupFirstGo (dedupKey e :: seen) rest

/-- First-occurrence deduplication by `dedupKey`. -/
def dedupFirst (l : List Rec) : List Rec :=
  dedupFirstGo [] l

/-- The `save` behavior the spec claims: merge `new_records` onto the
records currently persisted on disk, re-read at save time, then filter
as usual.  (The code's `save_logs` filters only the in-memory list.) -/
def save_spec (diskRecs : List Rec) (new_records : List Rec) : List Rec :=
  filter_logs (diskRecs ++ new_records)

/-- The body string the claim describes for `find_text`: one pass over
the sub-elements in document order, spans contributing their text and
non-spans contributing placeholders and line breaks in place. -/
def docOrderPass (acc : String) : List Elem → String
  | [] => acc
  | e :: rest =>
    if e.tag_name = "span" then docOrderPass (acc ++ e.text) rest
    else docOrderPass
      (acc ++ find_images e ++ (if e.tag_name = "br" then "\n" else "")) rest

/-- Body extraction as the claim states it: text, media placeholders and
newlines interleaved in document order, empty result absent. -/
def find_text_claim (w : Option Wrapper) : Option String :=
  match w with
  | none => none
  | some wrapper =>
    let result := docOrderPass "" wrapper.elems
    if result.isEmpty then none else some result

/-- Concatenated text of the span sub-elements, in document order. -/
def spanConcat (l : List Elem) : String :=
  String.join ((l.filter (fun e => e.tag_name = "span")).map Elem.text)

/-- Concatenated placeholders and line breaks of the non-span
sub-elements, in document order. -/
def mediaConcat (l : List Elem) : String :=
  String.join ((l.filter (fun e => ¬e.tag_name = "span")).map
    (fun e => find_images e ++ (if e.tag_name = "br" then "\n" else "")))

/-! ### Concrete sample data -/

/-- A complete non-preview message by Bob. -/
def rBob : Rec :=
  ⟨some "Bob", some "9", some "hi", some "2024-01-01T00:00:00Z",
    some "s1", some "c1", some false⟩

/-- A reply-preview record, authored (the preview of Alice's message). -/
def rAlicePreview : Rec :=
  ⟨some "Alice", some "123", some "reply text", some "2024-01-01T00:00:01Z",
    some "s1", some "c1", some true⟩

/-- A headless continuation record: no author fields, body present. -/
def rHeadless : Rec :=
  ⟨none, none, some "there", some "2024-01-01T00:00:02Z",
    some "s1", some "c1", some false⟩

/-- A record with an absent body (invalid under `SKIP_INVALID`). -/
def cr1 : Rec :=
  ⟨some "Ann", some "7", none, some "2024-02-02T00:00:00Z",
    some "s1", some "c1", some false⟩

/-- A complete record with the same deduplication key as `cr1`. -/
def cr2 : Rec :=
  ⟨some "Ann", some "7", some "hello", some "2024-02-02T00:00:00Z",
    some "s1", some "c1", some false⟩

/-- A record written to the artifact by an external editor (flag already
stripped, as persisted records are). -/
def extRec : Rec :=
  ⟨some "Ext", some "42", some "external", some "2024-03-03T00:00:00Z",
    some "s1", some "c1", none⟩

/-- A freshly scraped complete record, key distinct from `extRec`. -/
def rNew : Rec :=
  ⟨some "Yve", some "5", some "scraped", some "2024-03-04T00:00:00Z",
    some "s1", some "c1", some false⟩

/-- A span sub-element carrying the text `"a"`. -/
def spanA : Elem := ⟨"span", "a", none, []⟩

/-- A line-break sub-element. -/
def brElem : Elem := ⟨"br", "", none, []⟩

/-- A span sub-element carrying the text `"b"`. -/
def spanB : Elem := ⟨"span", "b", none, []⟩

/-- A wrapper whose document order is text `"a"`, a line break, then
text `"b"`. -/
def cw : Wrapper := ⟨[spanA, brElem, spanB]⟩

/-! ### Helper lemmas -/

/-- A record returned by `remove_previews` has its preview flag popped. -/
theorem remove_previews_eq_some {entry e : Rec}
    (h : remove_previews entry = some e) : e.is_reply_preview = none := by
  unfold remove_previews at h
  by_cases hb : truthyB entry.is_reply_preview = true
  · simp [hb] at h
  · simp [hb] at h
    rw [← h]

/-- Every record kept by the `filter_logs` loop has its preview flag
popped. -/
theorem mem_filterLogsGo_flag :
    ∀ (seen : List (Option String × Option String)) (l : List Rec) (e : Rec),
      e ∈ filterLogsGo seen l → e.is_reply_preview = none := by
  intro seen l
  induction l generalizing seen with
  | nil => intro e he; simp [filterLogsGo] at he
  | cons entry rest ih =>
    intro e he
    simp only [filterLogsGo] at he
    split at he
    · exact ih seen e he
    · rename_i e2 heq
      split at he
      · exact ih seen e he
      · split at he
        · rcases List.mem_cons.mp he with h | h
          · rw [h]; exact remove_previews_eq_some heq
          · exact ih _ e h
        · exact ih seen e he

/-! ### Claims -/

/-- C2: for every input record list, no record whose `is_reply_preview`
field is true appears in the output of `filter_logs` — the list that
`save_logs` persists; in fact the flag of every persisted record has been
popped, so it is never truthy. -/
theorem c2_preview_never_persisted (messages : List Rec) (e : Rec)
    (he : e ∈ filter_logs messages) :
    e.is_reply_preview ≠ some true ∧ truthyB e.is_reply_preview = false := by
  have h := mem_filterLogsGo_flag [] messages e he
  rw [h]
  exact ⟨by simp, rfl⟩

theorem c2_witness :
    ({ cr2 with is_reply_preview := none } : Rec) ∈ filter_logs [cr2] ∧
    (({ cr2 with is_reply_preview := none } : Rec).is_reply_preview ≠
        some true ∧
      truthyB ({ cr2 with is_reply_preview := none } : Rec).is_reply_preview =
        false) :=
  ⟨by decide, c2_preview_never_persisted [cr2] _ (by decide)⟩

/-- Unfolding of `survivors` on a record that `remove_previews` rejects. -/
theorem survivors_cons_none {entry : Rec} {rest : List Rec}
    (h : remove_previews entry = none) :
    survivors (entry :: rest) = survivors rest := by
  unfold survivors
  simp [List.filterMap_cons, h]

/-- Unfolding of `survivors` on a record that `remove_previews` keeps. -/
theorem survivors_cons_some {entry e2 : Rec} {rest : List Rec}
    (h : remove_previews entry = some e2) :
    survivors (entry :: rest) =
      if (SKIP_INVALID && !allValues e2) = true then survivors rest
      else e2 :: survivors rest := by
  unfold survivors
  simp only [List.filterMap_cons, h, List.filter_cons]
  by_cases hv : (SKIP_INVALID && !allValues e2) = true <;> simp [hv]

/-- The `filter_logs` loop is first-occurrence deduplication of the
surviving records, for any starting key set. -/
theorem filterLogsGo_eq_dedupFirstGo :
    ∀ (seen : List (Option String × Option String)) (l : List Rec),
      filterLogsGo seen l = dedupFirstGo seen (survivors l) := by
  intro seen l
  induction l generalizing seen with
  | nil => rfl
  | cons entry rest ih =>
    cases hrp : remove_previews entry with
    | none =>
      rw [survivors_cons_none hrp]
      simp only [filterLogsGo, hrp]
      exact ih seen
    | some e2 =>
      have hflag : e2.is_reply_preview = none := remove_previews_eq_some hrp
      rw [survivors_cons_some hrp]
      simp only [filterLogsGo, hrp]
      by_cases hv : (SKIP_INVALID && !allValues e2) = true
      · rw [if_pos hv, if_pos hv]
        exact ih seen
      · rw [if_neg hv, if_neg hv]
        simp only [dedupFirstGo]
        by_cases hk : dedupKey e2 ∈ seen
        · rw [if_neg (fun hc => hc.1 hk), if_pos hk]
          exact ih seen
        · rw [if_pos ⟨hk, by rw [hflag]; rfl⟩, if_neg hk, ih]

/-- C1 (amended): `filter_logs` keeps, per `(author_id, time)` key, the
first record among those that survive the reply-preview and
required-field filters; a dropped record does not reserve its key. -/
theorem c1_amended_first_surviving (msglist : List Rec) :
    filter_logs msglist = dedupFirst (survivors msglist) :=
  filterLogsGo_eq_dedupFirstGo [] msglist

/-- C1 counterexample: `cr1` and `cr2` share the deduplication key and
`cr1` comes first, yet the record `filter_logs` retains is `cr2` (its
body is `"hello"`, while `cr1`'s body is absent): when the
first-encountered record of a key is dropped as invalid, a later record
with the same key is retained, so the first-encountered record is not the
one persisted. -/
theorem c1_counterexample :
    dedupKey cr1 = dedupKey cr2 ∧
    filter_logs [cr1, cr2] = [{ cr2 with is_reply_preview := none }] ∧
    ({ cr2 with is_reply_preview := none } : Rec).body = some "hello" ∧
    cr1.body = none := by decide

/-- C3 counterexample: in a session whose last appended record is the
reply preview `rAlicePreview`, the headless record `rHeadless` inherits
`Alice`/`123` from that preview, not `Bob`/`9` from `rBob`, the
immediately preceding non-preview record — the parser inherits from the
last entry of the accumulator whether or not it is a preview. -/
theorem c3_counterexample :
    rAlicePreview.is_reply_preview = some true ∧
    rBob.is_reply_preview = some false ∧
    (retrieve_messages [] []
        [some ⟨some "m1", rBob⟩, some ⟨some "m2", rAlicePreview⟩,
          some ⟨some "m3", rHeadless⟩]).2.2 =
      [rBob, rAlicePreview,
        { rHeadless with author_id := some "123", author_name := some "Alice" }] ∧
    (some "Alice" : Option String) ≠ rBob.author_name := by decide

/-- C3 (amended): a parsed record with both author fields absent and body
present inherits `author_name` and `author_id` from the last entry of the
accumulator — whether or not that entry is a reply preview — when that
entry has both fields truthy; when the accumulator is empty or its last
entry lacks either field, the record is appended unchanged. -/
theorem c3_amended_inherit_last (logged : List Rec) (m : Rec)
    (h1 : truthyS m.author_name = false) (h2 : truthyS m.author_id = false)
    (h3 : truthyS m.body = true) :
    processNode logged m =
      logged ++
        [match logged.getLast? with
          | none => m
          | some last =>
            if truthyS last.author_id && truthyS last.author_name then
              { m with author_id := last.author_id, author_name := last.author_name }
            else m] := by
  unfold processNode see_if_is_headless
  cases logged.getLast? with
  | none => rfl
  | some last => simp [h1, h2, h3]

theorem c3_witness :
    processNode [rBob] rHeadless =
      [rBob,
        { rHeadless with author_id := some "9", author_name := some "Bob" }] :=
  (c3_amended_inherit_last [rBob] rHeadless (by decide) (by decide)
    (by decide)).trans (by decide)

/-- C4 counterexample: with `extRec` persisted on disk by an external
editor and `rNew` the in-memory list, `save_logs` writes only the
filtered in-memory list; the artifact the claim requires — the merge that
`save_spec` describes — differs, and `extRec` is lost. -/
theorem c4_counterexample :
    save_logs (some (dumps [extRec])) [rNew] =
      some (dumps [{ rNew with is_reply_preview := none }]) ∧
    save_spec [extRec] [rNew] =
      [extRec, { rNew with is_reply_preview := none }] ∧
    some (dumps [{ rNew with is_reply_preview := none }]) ≠
      some (dumps [extRec, { rNew with is_reply_preview := none }]) := by
  decide

/-- C4 (amended): `save_logs` writes the filtered in-memory record list
and nothing else; whenever that list is non-empty the written artifact is
independent of what is on disk at save time, so records added to the
artifact by an external editor after the startup `load_logs` are
overwritten, not preserved. -/
theorem c4_amended_ignores_disk (d1 d2 : Option String) (messages : List Rec)
    (h : filter_logs messages ≠ []) :
    save_logs d1 messages = some (dumps (filter_logs messages)) ∧
    save_logs d1 messages = save_logs d2 messages := by
  have hne : (filter_logs messages).isEmpty = false := by
    rw [List.isEmpty_eq_false]
    exact h
  unfold save_logs write_logs
  rw [hne]
  exact ⟨rfl, rfl⟩

theorem c4_witness :
    filter_logs [rNew] ≠ [] ∧
    save_logs (some "externally edited") [rNew] =
      some (dumps (filter_logs [rNew])) :=
  ⟨by decide,
    (c4_amended_ignores_disk (some "externally edited") none [rNew]
      (by decide)).1⟩

/-- The function `String.join` distributes over `cons`. -/
theorem string_join_cons (s : String) (l : List String) :
    String.join (s :: l) = s ++ String.join l := by
  apply String.ext
  simp [String.join_eq]

/-- The first `find_text` loop appends all span text, in document order,
to its accumulator. -/
theorem spanPass_eq (l : List Elem) :
    ∀ acc : String, spanPass acc l = acc ++ spanConcat l := by
  induction l with
  | nil =>
    intro acc
    simp [spanPass, spanConcat, String.join]
  | cons e rest ih =>
    intro acc
    by_cases h : e.tag_name = "span"
    · simp only [spanPass, if_pos h, ih]
      simp [spanConcat, List.filter_cons, h, string_join_cons,
        String.append_assoc]
    · simp only [spanPass, if_neg h, ih]
      simp [spanConcat, List.filter_cons, h]

/-- The second `find_text` loop appends all placeholders and line breaks
of the non-span elements, in document order, to its accumulator. -/
theorem elemPass_eq (l : List Elem) :
    ∀ acc : String, elemPass acc l = acc ++ mediaConcat l := by
  induction l with
  | nil =>
    intro acc
    simp [elemPass, mediaConcat, String.join]
  | cons e rest ih =>
    intro acc
    by_cases h : e.tag_name = "span"
    · simp only [elemPass, if_pos h, ih]
      simp [mediaConcat, List.filter_cons, h]
    · simp only [elemPass, if_neg h, ih]
      simp [mediaConcat, List.filter_cons, h, string_join_cons,
        String.append_assoc]

/-- C5 (amended): `find_text` emits all span text first, in document
order, and then the placeholders and line breaks of the non-span
sub-elements, in document order — not one interleaved document-order
pass; an empty result, like a missing wrapper, gives an absent body. -/
theorem c5_amended_spans_then_media (w : Wrapper) :
    find_text (some w) =
      (if (spanConcat w.elems ++ mediaConcat w.elems).isEmpty then none
        else some (spanConcat w.elems ++ mediaConcat w.elems)) ∧
    find_text none = none := by
  refine ⟨?_, rfl⟩
  have hstep : find_text (some w) =
      (if (elemPass (spanPass "" w.elems) w.elems).isEmpty then none
        else some (elemPass (spanPass "" w.elems) w.elems)) := rfl
  rw [hstep, spanPass_eq, elemPass_eq, String.empty_append]

/-- C5 counterexample: on a wrapper whose document order is span `"a"`,
a line break, span `"b"`, the code yields `"ab\n"` — the newline after
all the text — while the claimed document-order interleaving
(`find_text_claim`) yields `"a\nb"`. -/
theorem c5_counterexample :
    find_text (some cw) = some "ab\n" ∧
    find_text_claim (some cw) = some "a\nb" ∧
    find_text (some cw) ≠ find_text_claim (some cw) := by decide

/-- C6 counterexample: the two-character garbage artifact `"ab"` fails to
parse as JSON, yet `check_json` returns the empty sequence with the file
left in place un-renamed — no quarantine file is created and the original
path is still present. -/
theorem c6_counterexample :
    check_json { artifact := some "ab", quarantine := [] } Parsed.malformed =
      ([], { artifact := some "ab", quarantine := [] }) ∧
    ({ artifact := some "ab", quarantine := [] } : FsState).artifact ≠ none := by
  decide

/-- C6 (amended): when the artifact's text is longer than 3 characters
and fails to parse as a well-formed record sequence (a decode error or a
non-list JSON value), `check_json` returns the empty sequence, the
original path becomes absent, and a quarantine file holding the original
content exists; nothing is deleted or overwritten in place. -/
theorem c6_amended_quarantine (text : String) (q : List String)
    (parsed : Parsed) (hlen : 3 < text.length)
    (hbad : parsed = Parsed.malformed ∨ parsed = Parsed.nonList) :
    check_json { artifact := some text, quarantine := q } parsed =
      ([], { artifact := none, quarantine := text :: q }) := by
  rcases hbad with h | h <;> subst h <;> simp [check_json, hlen]

theorem c6_witness :
    3 < ("not valid json" : String).length ∧
    check_json { artifact := some "not valid json", quarantine := [] }
        Parsed.malformed =
      ([], { artifact := none, quarantine := ["not valid json"] }) :=
  ⟨by decide,
    c6_amended_quarantine "not valid json" [] Parsed.malformed (by decide)
      (Or.inl rfl)⟩

/-- C10: `check_json` quarantine-renames exactly when the text is longer
than 3 characters and `json.loads` gives a decode error, a non-list
value, or an empty list — in particular a well-formed empty JSON array
longer than 3 characters is renamed aside with the empty sequence
returned — while text of 3 characters or fewer yields the empty sequence
with the artifact left in place; a non-empty parsed list is returned
as-is with no rename. -/
theorem c10_length_threshold (text : String) (q : List String)
    (parsed : Parsed) :
    (3 < text.length →
      ((parsed = Parsed.malformed ∨ parsed = Parsed.nonList ∨
          parsed = Parsed.list []) →
        check_json { artifact := some text, quarantine := q } parsed =
          ([], { artifact := none, quarantine := text :: q })) ∧
      (∀ rs : List Rec, rs ≠ [] → parsed = Parsed.list rs →
        check_json { artifact := some text, quarantine := q } parsed =
          (rs, { artifact := some text, quarantine := q }))) ∧
    (text.length ≤ 3 →
      check_json { artifact := some text, quarantine := q } parsed =
        ([], { artifact := some text, quarantine := q })) := by
  constructor
  · intro hlen
    constructor
    · rintro (h | h | h) <;> subst h <;> simp [check_json, hlen]
    · rintro rs hrs rfl
      simp [check_json, hlen, hrs]
  · intro hlen
    have : ¬3 < text.length := by omega
    cases parsed <;> simp [check_json, this]

theorem c10_witness :
    3 < ("[ ] " : String).length ∧
    check_json { artifact := some "[ ] ", quarantine := [] }
        (Parsed.list []) =
      ([], { artifact := none, quarantine := ["[ ] "] }) :=
  ⟨by decide,
    ((c10_length_threshold "[ ] " [] (Parsed.list [])).1 (by decide)).1
      (Or.inr (Or.inr rfl))⟩

/-- C7: if a staleness fault occurs after any well-read node sequence
`pre`, the pass returns `Codes.BREAK_INNER` at once with exactly the
state the fault-free processing of `pre` produces — every record appended
before the fault is preserved, and the accumulator only grew — and the
controller's reaction to `Codes.BREAK_INNER` re-enters the loop with an
empty seen-set and the preserved records. -/
theorem c7_staleness_recovery (seen : List String) (logged : List Rec)
    (pre : List NodeData) (rest : List (Option NodeData)) :
    ∃ seen2 logged2,
      retrieve_messages seen logged (pre.map some ++ none :: rest) =
        (Codes.BREAK_INNER, seen2, logged2) ∧
      retrieve_messages seen logged (pre.map some) =
        (Codes.PASS, seen2, logged2) ∧
      (∃ post, logged2 = logged ++ post) ∧
      scrape_recover (Codes.BREAK_INNER, seen2, logged2) = ([], logged2) := by
  induction pre generalizing seen logged with
  | nil => exact ⟨seen, logged, rfl, rfl, ⟨[], by simp⟩, rfl⟩
  | cons nd pre ih =>
    by_cases h : idSeen seen nd.m_id = true
    · obtain ⟨s2, l2, h1, h2, ⟨post, hpost⟩, h4⟩ := ih seen logged
      refine ⟨s2, l2, ?_, ?_, ⟨post, hpost⟩, h4⟩
      · simpa [retrieve_messages, h] using h1
      · simpa [retrieve_messages, h] using h2
    · obtain ⟨s2, l2, h1, h2, ⟨post, hpost⟩, h4⟩ :=
        ih (addId seen nd.m_id) (processNode logged nd.msg)
      refine ⟨s2, l2, ?_, ?_,
        ⟨see_if_is_headless logged.getLast? nd.msg :: post, ?_⟩, h4⟩
      · simpa [retrieve_messages, h] using h1
      · simpa [retrieve_messages, h] using h2
      · rw [hpost]
        simp [processNode]

/-- Popping the preview flag in place does not change what
`remove_previews` makes of a record on a later pass. -/
theorem remove_previews_after_post (e : Rec) :
    remove_previews (remove_previews_post e) = remove_previews e := by
  cases e with
  | mk a b c d f g flag =>
    cases flag with
    | none => rfl
    | some bv => cases bv <;> rfl

/-- Filtering the list a previous `filter_logs` call mutated gives the
same output as filtering the original list. -/
theorem filterLogsGo_map_post :
    ∀ (seen : List (Option String × Option String)) (l : List Rec),
      filterLogsGo seen (l.map remove_previews_post) = filterLogsGo seen l := by
  intro seen l
  induction l generalizing seen with
  | nil => rfl
  | cons entry rest ih =>
    simp only [List.map_cons, filterLogsGo, remove_previews_after_post]
    split
    · exact ih seen
    · rename_i e2 heq
      by_cases hv : (SKIP_INVALID && !allValues e2) = true
      · rw [if_pos hv, if_pos hv]
        exact ih seen
      · rw [if_neg hv, if_neg hv]
        by_cases hk : dedupKey e2 ∉ seen ∧ truthyB e2.is_reply_preview = false
        · rw [if_pos hk, if_pos hk, ih]
        · rw [if_neg hk, if_neg hk]
          exact ih seen

/-- C8: `save_logs` is idempotent.  After a first call on `messages`, the
in-memory list's entries have had their preview flags popped
(`filter_logs_post`); a second call — whether on that mutated list or on
a pristine copy of the input — writes exactly what is already on disk,
leaving the artifact byte-for-byte unchanged. -/
theorem c8_save_idempotent (file : Option String) (messages : List Rec) :
    save_logs (save_logs file messages) (filter_logs_post messages) =
      save_logs file messages ∧
    save_logs (save_logs file messages) messages = save_logs file messages := by
  have hpost : filter_logs (filter_logs_post messages) = filter_logs messages :=
    filterLogsGo_map_post [] messages
  have hidem : ∀ (f : Option String) (l : List Rec),
      write_logs (write_logs f l) l = write_logs f l := by
    intro f l
    unfold write_logs
    by_cases h : l.isEmpty = true <;> simp [h]
  constructor
  · show write_logs (save_logs file messages)
        (filter_logs (filter_logs_post messages)) = save_logs file messages
    rw [hpost]
    exact hidem file (filter_logs messages)
  · exact hidem file (filter_logs messages)

/-- C9 counterexample: `cr2` has `is_reply_preview = some false` before a
save; after one `filter_logs` call its entry in the caller's list has had
the key popped, so the record is not identical before and after save. -/
theorem c9_counterexample :
    cr2.is_reply_preview = some false ∧
    filter_logs_post [cr2] = [{ cr2 with is_reply_preview := none }] ∧
    filter_logs_post [cr2] ≠ [cr2] := by decide

/-- C9 (amended): a save call mutates each input record at most by
popping its `is_reply_preview` key in place (and does so exactly on the
non-preview records); the list keeps its length and order and every other
field of every record is identical before and after. -/
theorem c9_amended_only_flag_popped (l : List Rec) (i : Nat) :
    (filter_logs_post l).length = l.length ∧
    (filter_logs_post l)[i]?.map Rec.author_name =
      l[i]?.map Rec.author_name ∧
    (filter_logs_post l)[i]?.map Rec.author_id =
      l[i]?.map Rec.author_id ∧
    (filter_logs_post l)[i]?.map Rec.body = l[i]?.map Rec.body ∧
    (filter_logs_post l)[i]?.map Rec.time = l[i]?.map Rec.time ∧
    (filter_logs_post l)[i]?.map Rec.server_id =
      l[i]?.map Rec.server_id ∧
    (filter_logs_post l)[i]?.map Rec.channel_id =
      l[i]?.map Rec.channel_id ∧
    (filter_logs_post l)[i]?.map Rec.is_reply_preview =
      l[i]?.map (fun e =>
        if truthyB e.is_reply_preview then e.is_reply_preview else none) := by
  unfold filter_logs_post
  refine ⟨by simp, ?_, ?_, ?_, ?_, ?_, ?_, ?_⟩ <;>
    · rw [List.getElem?_map]
      cases l[i]? with
      | none => rfl
      | some e =>
        cases e with
        | mk a b c d f g flag =>
          by_cases h : truthyB flag = true <;>
            simp [remove_previews_post, h]

end DiscordAuto
